import Mathlib

/-!
# Verification of the repipy target-classification and flux-derivation engine

Shallow embedding of `src/target.py` (class `Target` and its helpers):
header-based object classification (`regexp_dict`, `_get_object`),
coordinate-based standard-star search (`_name_using_coordinates`),
aperture-photometry scaffolding (`_get_photometry`), spectral flux
integration (`_get_flux`), and the memoization behaviour of the derived
properties.

Conventions of the embedding:
* Header object-field strings are `List Char`.  FITS header values are
  single 80-character ASCII cards, so the strings contain no newline
  characters; with that domain assumption `re.match` of the patterns in
  `regexp_dict` reduces to the substring tests below.
* Python floats are modelled as `ℚ` (exact arithmetic of the values the
  claims mention); `10 ** x` for a real exponent, and the cubic/linear
  interpolation cores of `scipy.interpolate.interp1d` (an external
  library), are abstract function parameters.
* The filesystem is a `List String` of the names of existing files,
  threaded explicitly through `_get_photometry`.
-/

/-- Predicate `containsSeq pat s`: true iff `pat` occurs as a contiguous
subsequence of `s`.  This is the semantics, on newline-free strings, of
`re.match('.*PAT.*', s)` / of a lookahead `(?=.*PAT)` anchored at the
start, and of `re.match('.*PAT', s)` (a prefix of `s` ending in `PAT`
exists iff `PAT` occurs somewhere in `s`). -/
def containsSeq (pat : List Char) : List Char → Bool
  | [] => pat.isEmpty
  | c :: tl => pat.isPrefixOf (c :: tl) || containsSeq pat tl

/-- Embedding of `target.py` line 135: `name_in_header.replace(" ","")`, composed with
the `re.I` flag of the subsequent matches (modelled by upper-casing the
subject; the patterns of `regexp_dict` are already upper case). -/
def normObj (s : List Char) : List Char :=
  (s.filter (fun c => c ≠ ' ')).map Char.toUpper

/-- First run of digits of `s`, truncated to four characters: the text
captured by the greedy group `(?P<number>\d{1,4})`. -/
def leadingDigits (s : List Char) : List Char :=
  (s.takeWhile Char.isDigit).take 4

/-- Semantics of `re.match('(?P<name>C(?:IG)?)(?P<number>\d{1,4})', u, re.I)` on the
upper-cased subject `u`: the match is anchored at the start, tries the
alternative `CIG` first and backtracks to `C`; it succeeds iff the prefix
`CIG` (resp. `C`) is followed by at least one digit, and the `number`
group captures up to four digits greedily. -/
def cigNumber : List Char → Option (List Char)
  | 'C' :: 'I' :: 'G' :: d :: tl =>
    if d.isDigit then some (leadingDigits (d :: tl))
    else none
  | 'C' :: d :: tl =>
    if d.isDigit then some (leadingDigits (d :: tl))
    else none
  | _ => none

/-- The six rules of `regexp_dict` (`target.py` lines 21-27). -/
inductive RuleId
  | bias
  | skyflat
  | domeflat
  | flat
  | blank
  | cig
deriving DecidableEq

/-- The value (object type string) associated to each pattern in
`regexp_dict`. -/
def ruleType : RuleId → String
  | .bias => "bias"
  | .skyflat => "skyflat"
  | .domeflat => "domeflat"
  | .flat => "flat"
  | .blank => "blank"
  | .cig => "cig"

/-- One iteration of the loop body of `_get_object` (lines 134-143) for a
single `(key, value)` pair of `regexp_dict`, applied to the normalized
subject `u`: `none` if `re.match(key, u, re.I)` fails, otherwise the
objname (`value`, with the captured `number` appended in the `cig`
case). -/
def ruleMatch (r : RuleId) (u : List Char) : Option String :=
  match r with
  | .bias =>
    -- '.*BIAS.*'
    if containsSeq "BIAS".toList u then some "bias" else none
  | .skyflat =>
    -- '(?=.*SKY)(?=.*FLAT)'
    if containsSeq "SKY".toList u && containsSeq "FLAT".toList u then
      some "skyflat" else none
  | .domeflat =>
    -- '(?=.*DOME)(?=.*FLAT)'
    if containsSeq "DOME".toList u && containsSeq "FLAT".toList u then
      some "domeflat" else none
  | .flat =>
    -- '(.*FLAT)'
    if containsSeq "FLAT".toList u then some "flat" else none
  | .blank =>
    -- '(.* BLANK)': the pattern demands a literal space before BLANK
    if containsSeq " BLANK".toList u then some "blank" else none
  | .cig =>
    (cigNumber u).map fun ds => "cig" ++ String.mk ds

/-- The order in which `regexp_dict.iteritems()` yields the six rules.
`regexp_dict` is a CPython 2.7 `dict` literal; its iteration order is the
slot order of the hash table, not the declaration order.  With the stock
CPython 2.7 string hash on a 64-bit build (hash randomization off, the
default), the hashes of the six pattern strings are
`'.*BIAS.*' ↦ 0x7193b8fc18938c43`, `'(?=.*SKY)(?=.*FLAT)' ↦
0xa86475f246c9ad89`, `'(?=.*DOME)(?=.*FLAT)' ↦ 0x993203ef34618804`,
`'(.*FLAT)' ↦ 0x23f8a95da523c196`, `'(.* BLANK)' ↦ 0x858b1d6cac95277d`,
`'(?P<name>C(?:IG)?)(?P<number>\d{1,4})' ↦ 0x4c92da633fedf934`; the
6-element dict resizes to 32 slots, where the keys occupy (hash mod 32)
slots 3, 9, 4, 22, 29, 20 respectively with no collision, so iteration
yields slots 3 (bias), 4 (domeflat), 9 (skyflat), 20 (cig), 22 (flat),
29 (blank). -/
def dictOrderRules : List RuleId :=
  [.bias, .domeflat, .skyflat, .cig, .flat, .blank]

/-- The declaration (source-text) order of the rules in the
`regexp_dict` literal, lines 21-27.  This is the order the specification
asserts; it is NOT the order the `iteritems()` loop uses. -/
def declOrderRules : List RuleId :=
  [.bias, .skyflat, .domeflat, .flat, .blank, .cig]

/-- The pattern-matching phase of `_get_object` (lines 134-143),
parameterized by the rule iteration order: normalize the header object
field, then return `(type, name)` of the first matching rule, or `none`
when no rule matches (the `for`/`else` falls through). -/
def classifyRules (rules : List RuleId) (objField : List Char) :
    Option (String × String) :=
  rules.findSome? fun r =>
    (ruleMatch r (normObj objField)).map fun nm => (ruleType r, nm)

/-- Embedding of `_get_object` (lines 125-146): first-matching rule of the
`iteritems()` loop, else the result of `_name_using_coordinates`
(supplied here as the parameter `coordResult`). -/
def get_object (coordResult : String × String) (objField : List Char) :
    String × String :=
  (classifyRules dictOrderRules objField).getD coordResult

/-- Catalog row of `standards.csv` (`stds`): name, ra, dec. -/
structure StdStar where
  name : String
  ra : ℚ
  dec : ℚ
deriving DecidableEq

/-- The membership test of `_name_using_coordinates` (line 203):
`min(ra_min, ra_max) < ra < max(ra_min, ra_max)` and likewise for dec —
strict inequalities on both axes. -/
def starInBox (raMin decMin raMax decMax : ℚ) (s : StdStar) : Bool :=
  min raMin raMax < s.ra && s.ra < max raMin raMax &&
    (min decMin decMax < s.dec && s.dec < max decMin decMax)

/-- The loop of `_name_using_coordinates` (lines 201-205): first catalog
entry, in load order, strictly inside the bounding box. -/
def findStd (stdsL : List StdStar) (raMin decMin raMax decMax : ℚ) :
    Option StdStar :=
  stdsL.find? (starInBox raMin decMin raMax decMax)

/-- Embedding of `_name_using_coordinates` (lines 187-206).  The corner coordinates
`(ra_min, dec_min)`, `(ra_max, dec_max)` produced by
`astropy.wcs.all_pix2world` (an external collaborator) are parameters;
`stdsL` is the catalog `stds` in load order.  Initial value and
no-match result: `('Unknown', 'Unknown')` (line 193, capital U). -/
def name_using_coordinates (stdsL : List StdStar)
    (raMin decMin raMax decMax : ℚ) : String × String :=
  match findStd stdsL raMin decMin raMax decMax with
  | some s => ("standard", s.name)
  | none => ("Unknown", "Unknown")

/-- Modelled from the spec: `repipy.utilities.if_exists_remove` (not under
`src/`) deletes the named file when it exists; on the filesystem model it
drops the name from the list of existing files. -/
def if_exists_remove (fs : List String) (f : String) : List String :=
  fs.filter (fun g => g ≠ f)

/-- Embedding of `_get_photometry` (`target.py` lines 97-123) as a state
transformer on the filesystem `fs` (list of existing file names).
`coords_file` is the fresh name produced by `tempfile.mkstemp`;
`photfile_name` is `self.header.im_name + ".mag.1"`; `raDecOk` tells
whether `float()` of the catalog lookup in `self.RA` succeeds (it raises
`TypeError` when `objname` is absent from the catalog); `isStandard` is
the test `self.objtype == "standard"`; `phot` is the flux printed by the
external `iraf.phot`/`txdump` collaborator, `none` when that collaborator
fails.  Files written by the external iraf collaborator itself are not
tracked; the model tracks exactly the files the Python code creates or
removes.  The first component is the outcome (`Except.error` = an
uncaught Python exception propagating out of the call). -/
def get_photometry (fs : List String) (coords_file photfile_name : String)
    (raDecOk isStandard : Bool) (phot : Option ℚ) :
    Except String (Option ℚ) × List String :=
  -- fd, coords_file = tempfile.mkstemp(...): the temporary file now exists
  let fs1 := coords_file :: fs
  if raDecOk then
    -- os.write(fd, ...) formatted self.RA, self.DEC successfully; os.close
    if isStandard then
      -- utilities.if_exists_remove(photfile_name)
      let fs2 := if_exists_remove fs1 photfile_name
      match phot with
      | some counts =>
        -- iraf.phot ran, txdump parsed; utilities.if_exists_remove(coords_file)
        (Except.ok (some counts), if_exists_remove fs2 coords_file)
      | none =>
        -- iraf.phot or txdump raised: the error propagates, no cleanup runs
        (Except.error "PhotometryFailure", fs2)
    else
      -- objtype not "standard": fall off the method, implicit `return None`;
      -- no cleanup of coords_file anywhere on this path
      (Except.ok none, fs1)
  else
    -- float() of the empty catalog match raised TypeError inside os.write's
    -- argument; the exception propagates with coords_file already created
    (Except.error "TypeError", fs1)

/-- Minimum of a list in the sense of `numpy.ndarray.min` (junk value `0`
for the empty list, where numpy raises instead; `_get_flux` only reaches
`.min()` with the filter curve's wavelength column, nonempty for any real
filter). -/
def npMin : List ℚ → ℚ
  | [] => 0
  | x :: xs => xs.foldl min x

/-- Maximum of a list in the sense of `numpy.ndarray.max` (junk value `0`
for the empty list). -/
def npMax : List ℚ → ℚ
  | [] => 0
  | x :: xs => xs.foldl max x

/-- Semantics of `numpy.arange(a, b)` for integer arguments and the
default step 1: the integers `a, a+1, ..., b-1`, excluding `b`; empty
when `b ≤ a`. -/
def npArange (a b : Int) : List Int :=
  (List.range (b - a).toNat).map fun (i : Nat) => a + (i : Int)

/-- Embedding of `target.py` lines 162-164: `wav_min =
int(numpy.ceil(wavelength_filter.min()))`, `wav_max =
int(numpy.floor(wavelength_filter.max()))`, `wavelength =
numpy.arange(wav_min, wav_max)`.  The argument is the wavelength column
of the filter curve. -/
def integrationGrid (wavelength_filter : List ℚ) : List Int :=
  npArange ⌈npMin wavelength_filter⌉ ⌊npMax wavelength_filter⌋

/-- Key order on sample points: comparison of wavelengths only. -/
def keyLE (p q : ℚ × ℚ) : Prop := p.1 ≤ q.1

instance : DecidableRel keyLE := fun p q =>
  inferInstanceAs (Decidable (p.1 ≤ q.1))

instance : IsTotal (ℚ × ℚ) keyLE := ⟨fun p q => le_total p.1 q.1⟩

instance : IsTrans (ℚ × ℚ) keyLE := ⟨fun _ _ _ h h' => le_trans h h'⟩

/-- Model of `scipy.interpolate.interp1d(x, y, kind=..., fill_value=0,
bounds_error=False)`, an external collaborator: with the default
`assume_sorted=False`, scipy first sorts the sample points by abscissa
and then builds the interpolant from the sorted samples.  The
construction of the interpolant itself (cubic-spline or piecewise-linear
evaluation with zero fill outside the native support) is the abstract
parameter `core`. -/
def interp1d (core : List (ℚ × ℚ) → ℚ → ℚ) (x y : List ℚ) : ℚ → ℚ :=
  core (List.insertionSort keyLE (x.zip y))

/-- The interpolated filter transmittance `f` of `_get_flux` line 167:
`interp1d(wavelength_filter, transmittance_filter, kind='cubic',
fill_value=0, bounds_error=False)`. -/
def tauFun (cubicCore : List (ℚ × ℚ) → ℚ → ℚ)
    (filterCurve : List (ℚ × ℚ)) : ℚ → ℚ :=
  interp1d cubicCore (filterCurve.map Prod.fst) (filterCurve.map Prod.snd)

/-- The interpolated stellar magnitude `g` of `_get_flux` line 169:
`interp1d(wavelength_star, magnitude_star, kind='linear', fill_value=0,
bounds_error=False)`. -/
def magFun (linCore : List (ℚ × ℚ) → ℚ → ℚ)
    (spectrum : List (ℚ × ℚ)) : ℚ → ℚ :=
  interp1d linCore (spectrum.map Prod.fst) (spectrum.map Prod.snd)

/-- Embedding of `_get_flux` (`target.py` lines 148-184) for the case
`self.spectra is not None`.  `spectrum` is the two-column array
`(wavelength, magnitude)` of the star, `filterCurve` the filter's
`(wavelength, transmittance)` array; `pow10 e` models the Python float
power `10 ** e`; `cubicCore`/`linCore` are the scipy interpolant
constructors (external).  All float arithmetic is exact in `ℚ`.  When the
grid `wavelength` has fewer than two points, line 175
(`delta_lambda = wavelength[1] - wavelength[0]`) raises `IndexError`
before any result is produced, so the embedding branches on the grid
first; on the long branch the stages mirror lines 167-183. -/
def get_flux (pow10 : ℚ → ℚ) (cubicCore linCore : List (ℚ × ℚ) → ℚ → ℚ)
    (spectrum filterCurve : List (ℚ × ℚ)) : Except String ℚ :=
  match integrationGrid (filterCurve.map Prod.fst) with
  | w0 :: w1 :: rest =>
    let wavelength := w0 :: w1 :: rest
    -- transmisttance_interpolated = f(wavelength)
    let transmittance_interpolated :=
      wavelength.map fun (l : Int) => tauFun cubicCore filterCurve (l : ℚ)
    -- magnitude_interpolated = g(wavelength)
    let magnitude_interpolated :=
      wavelength.map fun (l : Int) => magFun linCore spectrum (l : ℚ)
    -- flux_star = 10**((-48.6-magnitude_interpolated)/2.5)
    let flux_star :=
      magnitude_interpolated.map fun m => pow10 ((-48.6 - m) / 2.5)
    -- delta_lambda = wavelength[1] - wavelength[0]
    let delta_lambda : ℚ := (w1 : ℚ) - (w0 : ℚ)
    -- flux_star = flux_star * 3e18 / wavelength ** 2
    let flux_star2 :=
      (flux_star.zip wavelength).map fun p => p.1 * 3e18 / ((p.2 : ℚ)) ^ 2
    -- y = transmisttance_interpolated * flux_star
    let y := (transmittance_interpolated.zip flux_star2).map fun p =>
      p.1 * p.2
    -- result = sum(y * delta_lambda)
    Except.ok ((y.map fun v => v * delta_lambda).sum)
  | _ => Except.error "IndexError"

/-- The ingredients a `Target` instance derives its values from: what
each underlying computation would produce when it runs.  `objVal` is the
pair `_get_object` computes, `raDecVal` the catalog coordinates,
`photVal` the counts the external iraf collaborator returns, `fluxVal`
the value `_get_flux` computes, `spectrumVal` the contents of the
spectrum file, `filterPresent` the test
`self.filter.filter_curve is not None`. -/
structure TCtx where
  objVal : String × String
  raDecVal : ℚ × ℚ
  photVal : Option ℚ
  fluxVal : ℚ
  spectrumVal : List (ℚ × ℚ)
  filterPresent : Bool

/-- The mutable state of one `Target` instance: the per-instance caches
of the four `@utilities.memoize`-decorated methods, plus counters of how
many times each method body ran and how many times the spectrum file was
read. -/
structure TState where
  objCache : Option (String × String)
  raDecCache : Option (ℚ × ℚ)
  photCache : Option (Option ℚ)
  fluxCache : Option (Option ℚ)
  objRuns : Nat
  raDecRuns : Nat
  photRuns : Nat
  fluxRuns : Nat
  spectraReads : Nat

/-- A freshly constructed `Target`: empty caches, nothing computed. -/
def initTState : TState :=
  ⟨none, none, none, none, 0, 0, 0, 0, 0⟩

/-- Modelled from the spec: `utilities.memoize` (the decorator lives in
`repipy/utilities.py`, not under `src/`) caches the decorated method's
result per instance — the first call runs the body and stores the
result, later calls return the stored value without running the body.
`getObjectM` is the memoized `_get_object` (decorated at `target.py`
line 125); `objRuns` counts executions of the body. -/
def getObjectM (ctx : TCtx) (s : TState) : (String × String) × TState :=
  match s.objCache with
  | some v => (v, s)
  | none =>
    (ctx.objVal,
      { s with objCache := some ctx.objVal, objRuns := s.objRuns + 1 })

/-- The `spectra` property (`target.py` lines 76-94): a plain `@property`
with no `@utilities.memoize` decorator.  Every access re-runs the body:
it reads `self.objtype` (an access of the memoized `_get_object`) and,
for a standard object, re-opens and re-reads the spectrum file
(`spectraReads` counts the file reads); for a non-standard object it
returns `None` without touching the file. -/
def getSpectra (ctx : TCtx) (s : TState) :
    Option (List (ℚ × ℚ)) × TState :=
  let p := getObjectM ctx s
  if p.1.1 = "standard" then
    (some ctx.spectrumVal,
      { p.2 with spectraReads := p.2.spectraReads + 1 })
  else
    (none, p.2)

/-- The memoized `_get_RaDec` (lines 70-73): on a cache miss the body
runs, reading `self.objname` (an access of the memoized
`_get_object`). -/
def getRaDecM (ctx : TCtx) (s : TState) : (ℚ × ℚ) × TState :=
  match s.raDecCache with
  | some v => (v, s)
  | none =>
    let s1 := (getObjectM ctx s).2
    (ctx.raDecVal,
      { s1 with raDecCache := some ctx.raDecVal,
                raDecRuns := s1.raDecRuns + 1 })

/-- The memoized `_get_photometry` (lines 97-123): on a cache miss the
body formats `self.RA` and `self.DEC` (two accesses of the memoized
`_get_RaDec`), tests `self.objtype` (memoized `_get_object`), and for a
standard object invokes the external photometry collaborator. -/
def getPhotometryM (ctx : TCtx) (s : TState) : Option ℚ × TState :=
  match s.photCache with
  | some v => (v, s)
  | none =>
    let s1 := (getRaDecM ctx s).2
    let s2 := (getRaDecM ctx s1).2
    let p := getObjectM ctx s2
    let v := if p.1.1 = "standard" then ctx.photVal else none
    (v, { p.2 with photCache := some v, photRuns := p.2.photRuns + 1 })

/-- The memoized `_get_flux` (lines 148-184): on a cache miss the body
accesses `self.spectra` up to three times — the `is not None` test at
line 154 and the two `transpose()` reads at lines 156-157 — and each
access is a fresh run of the un-memoized `spectra` property. -/
def getFluxM (ctx : TCtx) (s : TState) : Option ℚ × TState :=
  match s.fluxCache with
  | some v => (v, s)
  | none =>
    let q := getSpectra ctx s
    match q.1 with
    | some _ =>
      let s2 := (getSpectra ctx q.2).2
      let s3 := (getSpectra ctx s2).2
      (some ctx.fluxVal,
        { s3 with fluxCache := some (some ctx.fluxVal),
                  fluxRuns := s3.fluxRuns + 1 })
    | none =>
      (none, { q.2 with fluxCache := some none,
                        fluxRuns := q.2.fluxRuns + 1 })

/-- The `flux` property (lines 63-67): `if self.spectra is not None and
self.filter.filter_curve is not None: return self._get_flux()`.  The
guard re-reads the spectrum on every access, even when `_get_flux` is
already cached. -/
def getFluxProp (ctx : TCtx) (s : TState) : Option ℚ × TState :=
  let q := getSpectra ctx s
  if q.1.isSome && ctx.filterPresent then getFluxM ctx q.2
  else (none, q.2)

/-- The seven public derived attributes of a `Target`. -/
inductive TAccess
  | objtype
  | objname
  | ra
  | dec
  | counts
  | flux
  | spectra

/-- The state transition caused by reading one attribute (`objtype` and
`objname` both delegate to the memoized `_get_object`; `RA` and `DEC` to
the memoized `_get_RaDec`). -/
def accessStep (ctx : TCtx) (s : TState) : TAccess → TState
  | .objtype => (getObjectM ctx s).2
  | .objname => (getObjectM ctx s).2
  | .ra => (getRaDecM ctx s).2
  | .dec => (getRaDecM ctx s).2
  | .counts => (getPhotometryM ctx s).2
  | .flux => (getFluxProp ctx s).2
  | .spectra => (getSpectra ctx s).2

/-- Run a sequence of attribute accesses against one `Target` instance. -/
def runAccesses (ctx : TCtx) (s : TState) : List TAccess → TState
  | [] => s
  | a :: tl => runAccesses ctx (accessStep ctx s a) tl

example : classifyRules dictOrderRules "BIAS frame".toList
    = some ("bias", "bias") := by decide

example : classifyRules dictOrderRules "cig0123".toList
    = some ("cig", "cig0123") := by decide

example : classifyRules dictOrderRules "SKY DOME FLAT".toList
    = some ("domeflat", "domeflat") := by decide

example : classifyRules declOrderRules "SKY DOME FLAT".toList
    = some ("skyflat", "skyflat") := by decide

example : classifyRules dictOrderRules "BLANK".toList = none := by decide

example : name_using_coordinates [] 0 0 1 1 = ("Unknown", "Unknown") := by
  decide

/-- The memoization invariant of a `Target` state: each memoized method
has run exactly as often as its cache is filled — zero times while the
cache is empty, once after. -/
def MemoInv (s : TState) : Prop :=
  s.objRuns = (if s.objCache.isSome then 1 else 0) ∧
  s.raDecRuns = (if s.raDecCache.isSome then 1 else 0) ∧
  s.photRuns = (if s.photCache.isSome then 1 else 0) ∧
  s.fluxRuns = (if s.fluxCache.isSome then 1 else 0)

/-! ## Helper lemmas -/

theorem toNat_ofNat_valid {n : Nat} (h : n.isValidChar) :
    (Char.ofNat n).toNat = n := by
  simp [Char.ofNat, dif_pos h, Char.ofNatAux, Char.toNat, UInt32.toNat,
    BitVec.toNat_ofNatLt]

theorem toUpper_ne_space {c : Char} (hc : c ≠ ' ') : c.toUpper ≠ ' ' := by
  intro h
  rw [Char.toUpper] at h
  by_cases hr : c.toNat ≥ 97 ∧ c.toNat ≤ 122
  · rw [if_pos hr] at h
    have hv : (c.toNat - 32).isValidChar := Or.inl (by omega)
    have h32 : (' ').toNat = 32 := rfl
    have := congrArg Char.toNat h
    rw [toNat_ofNat_valid hv, h32] at this
    omega
  · rw [if_neg hr] at h
    exact hc h

theorem containsSeq_subset {pat u : List Char}
    (h : containsSeq pat u = true) : ∀ c ∈ pat, c ∈ u := by
  induction u with
  | nil =>
    intro c hc
    rw [containsSeq, List.isEmpty_iff] at h
    subst h
    simp at hc
  | cons a tl ih =>
    intro c hc
    rw [containsSeq, Bool.or_eq_true] at h
    cases h with
    | inl hp =>
      exact (List.isPrefixOf_iff_prefix.mp hp).subset hc
    | inr hr =>
      exact List.mem_cons_of_mem a (ih hr c hc)

theorem space_not_mem_normObj (s : List Char) : ' ' ∉ normObj s := by
  rw [normObj]
  simp only [List.mem_map, List.mem_filter, decide_eq_true_eq]
  rintro ⟨c, ⟨_, hne⟩, heq⟩
  exact toUpper_ne_space hne heq

/-! ## Claim C5 -/

/-- C5 (code bug): the claim says a header object field reading "BLANK"
is classified with objtype "blank".  In the code the rule `(.* BLANK)`
can never fire: the pattern demands a literal space immediately before
`BLANK`, but `_get_object` first removes every space from the subject
(`name_in_header.replace(" ","")`), so classification of "BLANK" falls
through every rule to the coordinate search, and the blank rule matches
no input whatsoever. -/
theorem C5_blank_rule_dead (coordResult : String × String) :
    classifyRules dictOrderRules "BLANK".toList = none ∧
    get_object coordResult "BLANK".toList = coordResult ∧
    ∀ s : List Char, ruleMatch RuleId.blank (normObj s) = none := by
  have hnone : classifyRules dictOrderRules "BLANK".toList = none := by
    decide
  refine ⟨hnone, ?_, ?_⟩
  · rw [get_object, hnone]
    rfl
  · intro s
    rw [ruleMatch]
    rw [if_neg]
    intro hb
    exact space_not_mem_normObj s
      (containsSeq_subset hb ' ' (by decide))

/-! ## Claim C1 -/

/-- C1 (counterexample): with a standard-star target whose external
photometry invocation fails, `_get_photometry` propagates the error while
the temporary coordinate file is still on the filesystem — the claim
demands the file be removed before the error surfaces. -/
theorem C1_counterexample :
    (get_photometry [] "standards42.coords" "img.mag.1" true true
        (none : Option ℚ)).1 = Except.error "PhotometryFailure" ∧
    "standards42.coords" ∈
      (get_photometry [] "standards42.coords" "img.mag.1" true true
        (none : Option ℚ)).2 :=
  ⟨rfl, by simp [get_photometry, if_exists_remove]⟩

/-- C1 (amended): the temporary coordinate file created by
`_get_photometry` is removed exactly on the one successful path — object
of type standard, coordinates formatted without error, external
photometry collaborator succeeding.  On every other exit path (object
not a standard star, coordinate formatting raising, photometry failing)
the file is still present when the call finishes.  The hypothesis holds
for the real file names: `mkstemp` produces `standards<random>.coords`,
distinct from the `<image>.mag.1` photometry output file. -/
theorem C1_amended_tmpfile_removed_iff_success (fs : List String)
    (coords_file photfile_name : String) (raDecOk isStandard : Bool)
    (phot : Option ℚ) (hne : coords_file ≠ photfile_name) :
    (coords_file ∉
        (get_photometry fs coords_file photfile_name raDecOk isStandard
          phot).2) ↔
      (raDecOk = true ∧ isStandard = true ∧ phot.isSome = true) := by
  cases raDecOk <;> cases isStandard <;> cases phot <;>
    simp [get_photometry, if_exists_remove, hne]

/-- C1 (witness): instantiation of the amended theorem at the successful
path. -/
theorem C1_witness :
    ("standards42.coords" : String) ≠ "img.mag.1" ∧
    (("standards42.coords" ∉
        (get_photometry [] "standards42.coords" "img.mag.1" true true
          (some (5 : ℚ))).2) ↔
      (true = true ∧ true = true ∧ (some (5 : ℚ)).isSome = true)) :=
  ⟨by decide,
    C1_amended_tmpfile_removed_iff_success [] "standards42.coords"
      "img.mag.1" true true (some (5 : ℚ)) (by decide)⟩

/-! ## Claim C6 -/

/-- C6 (counterexample): when no catalog entry lies inside the bounding
box, `_name_using_coordinates` returns `('Unknown', 'Unknown')` with a
capital U — not the lowercase `("unknown", "unknown")` the claim
states. -/
theorem C6_counterexample :
    name_using_coordinates [] 0 0 1 1 = ("Unknown", "Unknown") ∧
    (("Unknown", "Unknown") : String × String) ≠ ("unknown", "unknown") := by
  decide

/-- C6 (amended): whenever no catalog entry passes the bounding-box
membership test, `_name_using_coordinates` returns exactly
`objtype = "Unknown"` and `objname = "Unknown"` (capitalized, the
initial values of line 193). -/
theorem C6_amended_unknown_capitalized (stdsL : List StdStar)
    (raMin decMin raMax decMax : ℚ)
    (h : ∀ e ∈ stdsL, starInBox raMin decMin raMax decMax e = false) :
    name_using_coordinates stdsL raMin decMin raMax decMax
      = ("Unknown", "Unknown") := by
  have hf : findStd stdsL raMin decMin raMax decMax = none := by
    rw [findStd, List.find?_eq_none]
    intro x hx
    simp [h x hx]
  rw [name_using_coordinates, hf]

/-- C6 (witness): instantiation of the amended theorem at a one-entry
catalog whose entry lies outside the box. -/
theorem C6_witness :
    (∀ e ∈ [({ name := "HD1", ra := 5, dec := 5 } : StdStar)],
      starInBox 0 0 1 1 e = false) ∧
    name_using_coordinates [{ name := "HD1", ra := 5, dec := 5 }] 0 0 1 1
      = ("Unknown", "Unknown") :=
  ⟨by decide,
    C6_amended_unknown_capitalized [{ name := "HD1", ra := 5, dec := 5 }]
      0 0 1 1 (by decide)⟩

/-! ## Claim C10 -/

/-- C10 (confirmed): the bounding-box membership test of
`_name_using_coordinates` uses strict inequalities on both axes, so a
catalog entry whose right ascension equals the minimum or maximum of the
two corner ra values (or whose declination equals a corner dec bound) is
never the entry returned as a standard, even though it lies on the
boundary. -/
theorem C10_boundary_never_standard (stdsL : List StdStar)
    (raMin decMin raMax decMax : ℚ) (e : StdStar)
    (hb : e.ra = min raMin raMax ∨ e.ra = max raMin raMax ∨
      e.dec = min decMin decMax ∨ e.dec = max decMin decMax) :
    findStd stdsL raMin decMin raMax decMax ≠ some e := by
  intro h
  have hp : starInBox raMin decMin raMax decMax e = true :=
    List.find?_some h
  rw [starInBox] at hp
  simp only [Bool.and_eq_true, decide_eq_true_eq] at hp
  obtain ⟨⟨h1, h2⟩, h3, h4⟩ := hp
  rcases hb with hb | hb | hb | hb
  · exact absurd (hb ▸ h1) (lt_irrefl _)
  · exact absurd (hb ▸ h2) (lt_irrefl _)
  · exact absurd (hb ▸ h3) (lt_irrefl _)
  · exact absurd (hb ▸ h4) (lt_irrefl _)

/-- C10 (witness): instantiation at a catalog entry sitting exactly on
the left ra bound of the box. -/
theorem C10_witness :
    (({ name := "X", ra := 0, dec := 5 } : StdStar).ra = min 0 10 ∨
      ({ name := "X", ra := 0, dec := 5 } : StdStar).ra = max 0 10 ∨
      ({ name := "X", ra := 0, dec := 5 } : StdStar).dec = min 0 10 ∨
      ({ name := "X", ra := 0, dec := 5 } : StdStar).dec = max 0 10) ∧
    findStd [{ name := "X", ra := 0, dec := 5 }] 0 0 10 10
      ≠ some { name := "X", ra := 0, dec := 5 } :=
  ⟨Or.inl (by decide),
    C10_boundary_never_standard [{ name := "X", ra := 0, dec := 5 }]
      0 0 10 10 { name := "X", ra := 0, dec := 5 } (Or.inl (by decide))⟩

/-! ## Claim C2 -/

/-- C2 (counterexample): the header object field "SKY DOME FLAT"
(normalized "SKYDOMEFLAT") matches both the "SKY FLAT" rule and the
"DOME FLAT" rule.  The "SKY FLAT" pattern is declared earlier in
`regexp_dict` (declaration order: bias, skyflat, domeflat, flat, blank,
cig), so declaration-order first-match-wins demands "skyflat"; the code,
iterating the dict in hash order, returns "domeflat". -/
theorem C2_counterexample :
    containsSeq "SKY".toList (normObj "SKY DOME FLAT".toList) = true ∧
    containsSeq "DOME".toList (normObj "SKY DOME FLAT".toList) = true ∧
    containsSeq "FLAT".toList (normObj "SKY DOME FLAT".toList) = true ∧
    classifyRules declOrderRules "SKY DOME FLAT".toList
      = some ("skyflat", "skyflat") ∧
    classifyRules dictOrderRules "SKY DOME FLAT".toList
      = some ("domeflat", "domeflat") ∧
    (("domeflat", "domeflat") : String × String) ≠ ("skyflat", "skyflat") := by
  decide

/-- C2 (amended): classification is deterministic with first-match-wins
over the fixed CPython 2.7 hash iteration order (bias, domeflat,
skyflat, cig, flat, blank), which is not the declaration order.  Under
that order the highlighted consequence of the claim still holds: a
string matching both the "DOME FLAT" pattern and the generic "FLAT"
pattern is never classified "flat", and — unless it also matches the
earlier bias rule — it is classified "domeflat". -/
theorem C2_amended_domeflat_wins (objField : List Char)
    (hd : containsSeq "DOME".toList (normObj objField) = true)
    (hf : containsSeq "FLAT".toList (normObj objField) = true) :
    (∀ p ∈ classifyRules dictOrderRules objField, p.1 ≠ "flat") ∧
    (containsSeq "BIAS".toList (normObj objField) = false →
      classifyRules dictOrderRules objField
        = some ("domeflat", "domeflat")) := by
  have hd' : containsSeq ['D', 'O', 'M', 'E'] (normObj objField) = true := hd
  have hf' : containsSeq ['F', 'L', 'A', 'T'] (normObj objField) = true := hf
  cases hbias : containsSeq "BIAS".toList (normObj objField) with
  | true =>
    have hb' : containsSeq ['B', 'I', 'A', 'S'] (normObj objField) = true :=
      hbias
    have hres : classifyRules dictOrderRules objField
        = some ("bias", "bias") := by
      simp [classifyRules, dictOrderRules, List.findSome?_cons, ruleMatch,
        ruleType, hb']
    refine ⟨?_, ?_⟩
    · intro p hp
      rw [hres] at hp
      simp only [Option.mem_def, Option.some_inj] at hp
      subst hp
      decide
    · intro hb
      exact Bool.noConfusion hb
  | false =>
    have hb' : containsSeq ['B', 'I', 'A', 'S'] (normObj objField) = false :=
      hbias
    have hres : classifyRules dictOrderRules objField
        = some ("domeflat", "domeflat") := by
      simp [classifyRules, dictOrderRules, List.findSome?_cons, ruleMatch,
        ruleType, hb', hd', hf']
    refine ⟨?_, fun _ => hres⟩
    intro p hp
    rw [hres] at hp
    simp only [Option.mem_def, Option.some_inj] at hp
    subst hp
    decide

/-- C2 (witness): instantiation of the amended theorem at the object
field "DOME FLAT". -/
theorem C2_witness :
    (containsSeq "DOME".toList (normObj "DOME FLAT".toList) = true ∧
      containsSeq "FLAT".toList (normObj "DOME FLAT".toList) = true) ∧
    ((∀ p ∈ classifyRules dictOrderRules "DOME FLAT".toList,
        p.1 ≠ "flat") ∧
      (containsSeq "BIAS".toList (normObj "DOME FLAT".toList) = false →
        classifyRules dictOrderRules "DOME FLAT".toList
          = some ("domeflat", "domeflat"))) :=
  ⟨⟨by decide, by decide⟩,
    C2_amended_domeflat_wins "DOME FLAT".toList (by decide) (by decide)⟩

/-! ## Claim C3 -/

theorem length_npArange (a b : Int) :
    (npArange a b).length = (b - a).toNat := by
  rw [npArange, List.length_map, List.length_range]

theorem mem_npArange {a b k : Int} :
    k ∈ npArange a b ↔ a ≤ k ∧ k < b := by
  simp only [npArange, List.mem_map, List.mem_range]
  constructor
  · rintro ⟨i, hi, rfl⟩
    omega
  · rintro ⟨h1, h2⟩
    exact ⟨(k - a).toNat, by omega, by omega⟩

/-- C3 (counterexample): for the filter curve spanning wavelengths
4000.2 (= 20001/5) to 4999.8 (= 24999/5) the code's grid
`numpy.arange(4001, 4999)` has 998 points and stops at 4998: the integer
4999 = floor(max wavelength) named by the claim's closed interval is NOT
a grid point, and the claimed count 999 is wrong. -/
theorem C3_counterexample :
    (integrationGrid [(20001 : ℚ)/5, 24999/5]).length = 998 ∧
    (4999 : Int) ∉ integrationGrid [(20001 : ℚ)/5, 24999/5] ∧
    (998 : Nat) ≠ 999 := by
  have hmin : npMin [(20001 : ℚ)/5, 24999/5] = 20001/5 := by
    simp only [npMin, List.foldl]
    exact min_eq_left (by norm_num)
  have hmax : npMax [(20001 : ℚ)/5, 24999/5] = 24999/5 := by
    simp only [npMax, List.foldl]
    exact max_eq_right (by norm_num)
  have hceil : ⌈(20001 : ℚ)/5⌉ = 4001 := by
    rw [Int.ceil_eq_iff]
    constructor <;> norm_num
  have hfloor : ⌊(24999 : ℚ)/5⌋ = 4999 := by
    rw [Int.floor_eq_iff]
    constructor <;> norm_num
  have hg : integrationGrid [(20001 : ℚ)/5, 24999/5]
      = npArange 4001 4999 := by
    rw [integrationGrid, hmin, hmax, hceil, hfloor]
  refine ⟨?_, ?_, by decide⟩
  · rw [hg, length_npArange]
    decide
  · rw [hg, mem_npArange]
    omega

/-- C3 (amended): for every non-empty filter curve the integration grid
consists of every integer of the HALF-OPEN interval
[ceil(min λ), floor(max λ)) with step 1 — the upper endpoint
floor(max λ) is excluded, because `numpy.arange(wav_min, wav_max)` stops
one before `wav_max`; accordingly the grid has
floor(max λ) - ceil(min λ) points (998 points 4001..4998 for a filter
spanning [4000.2, 4999.8]). -/
theorem C3_amended_grid_halfopen (ws : List ℚ) (hne : ws ≠ []) :
    (∀ k : Int, k ∈ integrationGrid ws ↔
      (⌈npMin ws⌉ ≤ k ∧ k < ⌊npMax ws⌋)) ∧
    (integrationGrid ws).length = (⌊npMax ws⌋ - ⌈npMin ws⌉).toNat := by
  refine ⟨fun k => ?_, ?_⟩
  · rw [integrationGrid]
    exact mem_npArange
  · rw [integrationGrid, length_npArange]

/-- C3 (witness): instantiation of the amended theorem at the
[4000.2, 4999.8] filter curve. -/
theorem C3_witness :
    ([(20001 : ℚ)/5, 24999/5] ≠ []) ∧
    ((∀ k : Int, k ∈ integrationGrid [(20001 : ℚ)/5, 24999/5] ↔
        (⌈npMin [(20001 : ℚ)/5, 24999/5]⌉ ≤ k ∧
          k < ⌊npMax [(20001 : ℚ)/5, 24999/5]⌋)) ∧
      (integrationGrid [(20001 : ℚ)/5, 24999/5]).length
        = (⌊npMax [(20001 : ℚ)/5, 24999/5]⌋
            - ⌈npMin [(20001 : ℚ)/5, 24999/5]⌉).toNat) :=
  ⟨List.cons_ne_nil _ _,
    C3_amended_grid_halfopen [(20001 : ℚ)/5, 24999/5]
      (List.cons_ne_nil _ _)⟩

/-! ## Claim C7 -/

theorem get_flux_error_of_short_grid (pow10 : ℚ → ℚ)
    (cubicCore linCore : List (ℚ × ℚ) → ℚ → ℚ)
    (spectrum filterCurve : List (ℚ × ℚ))
    (h : (integrationGrid (filterCurve.map Prod.fst)).length < 2) :
    get_flux pow10 cubicCore linCore spectrum filterCurve
      = Except.error "IndexError" := by
  unfold get_flux
  split
  next w0 w1 rest heq =>
    rw [heq] at h
    exact absurd h (by simp only [List.length_cons]; omega)
  next => rfl

/-- C7 (counterexample): a filter curve whose support holds no full
integer step (wavelengths 4.5 = 9/2 and 5: ceil(min) = 5, floor(max) =
5, empty grid) makes `_get_flux` raise `IndexError` at
`wavelength[1] - wavelength[0]` — it crashes instead of returning the
absence the claim states. -/
theorem C7_counterexample :
    (integrationGrid
        (([((9 : ℚ)/2, (1 : ℚ)), (5, 1)]).map Prod.fst)).length < 2 ∧
    get_flux (fun _ => 0) (fun _ _ => 0) (fun _ _ => 0) []
      [((9 : ℚ)/2, (1 : ℚ)), (5, 1)] = Except.error "IndexError" := by
  have hm : (([((9 : ℚ)/2, (1 : ℚ)), (5, 1)]).map Prod.fst)
      = [(9 : ℚ)/2, 5] := rfl
  have hmin : npMin [(9 : ℚ)/2, 5] = 9/2 := by
    simp only [npMin, List.foldl]
    exact min_eq_left (by norm_num)
  have hmax : npMax [(9 : ℚ)/2, 5] = 5 := by
    simp only [npMax, List.foldl]
    exact max_eq_right (by norm_num)
  have hceil : ⌈(9 : ℚ)/2⌉ = 5 := by
    rw [Int.ceil_eq_iff]
    constructor <;> norm_num
  have hfloor : ⌊(5 : ℚ)⌋ = 5 := by
    rw [Int.floor_eq_iff]
    constructor <;> norm_num
  have hgrid : integrationGrid
      (([((9 : ℚ)/2, (1 : ℚ)), (5, 1)]).map Prod.fst) = [] := by
    rw [hm, integrationGrid, hmin, hmax, hceil, hfloor]
    rfl
  refine ⟨?_, ?_⟩
  · rw [hgrid]
    decide
  · exact get_flux_error_of_short_grid _ _ _ _ _ (by rw [hgrid]; decide)

/-- C7 (amended): whenever the integration grid has fewer than two
points, `_get_flux` raises `IndexError` (the failed index access
`wavelength[1]`) rather than returning a flux value or a silent
absence. -/
theorem C7_amended_short_grid_raises (pow10 : ℚ → ℚ)
    (cubicCore linCore : List (ℚ × ℚ) → ℚ → ℚ)
    (spectrum filterCurve : List (ℚ × ℚ))
    (h : (integrationGrid (filterCurve.map Prod.fst)).length < 2) :
    get_flux pow10 cubicCore linCore spectrum filterCurve
      = Except.error "IndexError" :=
  get_flux_error_of_short_grid pow10 cubicCore linCore spectrum
    filterCurve h

/-- C7 (witness): instantiation of the amended theorem at a one-point
filter curve, whose grid `arange(5, 4)` is empty. -/
theorem C7_witness :
    ((integrationGrid
        (([((9 : ℚ)/2, (1 : ℚ))]).map Prod.fst)).length < 2) ∧
    get_flux (fun _ => 1) (fun _ _ => 1) (fun _ _ => 1) []
      [((9 : ℚ)/2, (1 : ℚ))] = Except.error "IndexError" := by
  have hceil : ⌈(9 : ℚ)/2⌉ = 5 := by
    rw [Int.ceil_eq_iff]
    constructor <;> norm_num
  have hfloor : ⌊(9 : ℚ)/2⌋ = 4 := by
    rw [Int.floor_eq_iff]
    constructor <;> norm_num
  have hgrid : integrationGrid
      (([((9 : ℚ)/2, (1 : ℚ))]).map Prod.fst) = [] := by
    show npArange ⌈npMin [(9 : ℚ)/2]⌉ ⌊npMax [(9 : ℚ)/2]⌋ = []
    show npArange ⌈(9 : ℚ)/2⌉ ⌊(9 : ℚ)/2⌋ = []
    rw [hceil, hfloor]
    rfl
  have hhyp : (integrationGrid
      (([((9 : ℚ)/2, (1 : ℚ))]).map Prod.fst)).length < 2 := by
    rw [hgrid]
    decide
  exact ⟨hhyp,
    C7_amended_short_grid_raises (fun _ => 1) (fun _ _ => 1) (fun _ _ => 1)
      [] [((9 : ℚ)/2, (1 : ℚ))] hhyp⟩

/-! ## Claim C4 -/

theorem memoInv_init : MemoInv initTState := by
  simp [MemoInv, initTState]

theorem memoInv_getObjectM (ctx : TCtx) {s : TState} (h : MemoInv s) :
    MemoInv (getObjectM ctx s).2 := by
  obtain ⟨h1, h2, h3, h4⟩ := h
  cases hc : s.objCache with
  | some v => simpa [getObjectM, hc] using ⟨h1, h2, h3, h4⟩
  | none =>
    rw [hc] at h1
    simp only [Option.isSome_none, Bool.false_eq_true, if_false] at h1
    simp [getObjectM, hc, MemoInv, h1, h2, h3, h4]

theorem getObjectM_frame (ctx : TCtx) (s : TState) :
    (getObjectM ctx s).2.raDecCache = s.raDecCache ∧
    (getObjectM ctx s).2.photCache = s.photCache ∧
    (getObjectM ctx s).2.fluxCache = s.fluxCache := by
  cases hc : s.objCache <;> simp [getObjectM, hc]

theorem memoInv_getSpectra (ctx : TCtx) {s : TState} (h : MemoInv s) :
    MemoInv (getSpectra ctx s).2 := by
  have h2 := memoInv_getObjectM ctx h
  simp only [getSpectra]
  split_ifs <;> exact h2

theorem getSpectra_frame (ctx : TCtx) (s : TState) :
    (getSpectra ctx s).2.raDecCache = s.raDecCache ∧
    (getSpectra ctx s).2.photCache = s.photCache ∧
    (getSpectra ctx s).2.fluxCache = s.fluxCache := by
  have hf := getObjectM_frame ctx s
  simp only [getSpectra]
  split_ifs <;> simp [hf.1, hf.2.1, hf.2.2]

theorem memoInv_getRaDecM (ctx : TCtx) {s : TState} (h : MemoInv s) :
    MemoInv (getRaDecM ctx s).2 := by
  cases hc : s.raDecCache with
  | some v => simpa [getRaDecM, hc] using h
  | none =>
    obtain ⟨i1, i2, i3, i4⟩ := memoInv_getObjectM ctx h
    rw [(getObjectM_frame ctx s).1, hc] at i2
    simp only [Option.isSome_none, Bool.false_eq_true, if_false] at i2
    simp [getRaDecM, hc, MemoInv, i1, i2, i3, i4]

theorem getRaDecM_frame (ctx : TCtx) (s : TState) :
    (getRaDecM ctx s).2.photCache = s.photCache ∧
    (getRaDecM ctx s).2.fluxCache = s.fluxCache := by
  cases hc : s.raDecCache <;>
    simp [getRaDecM, hc, (getObjectM_frame ctx s).2.1,
      (getObjectM_frame ctx s).2.2]

theorem memoInv_getPhotometryM (ctx : TCtx) {s : TState} (h : MemoInv s) :
    MemoInv (getPhotometryM ctx s).2 := by
  cases hc : s.photCache with
  | some v => simpa [getPhotometryM, hc] using h
  | none =>
    have m2 : MemoInv (getRaDecM ctx (getRaDecM ctx s).2).2 :=
      memoInv_getRaDecM ctx (memoInv_getRaDecM ctx h)
    obtain ⟨i1, i2, i3, i4⟩ := memoInv_getObjectM ctx m2
    rw [(getObjectM_frame ctx (getRaDecM ctx (getRaDecM ctx s).2).2).2.1,
      (getRaDecM_frame ctx (getRaDecM ctx s).2).1,
      (getRaDecM_frame ctx s).1, hc] at i3
    simp only [Option.isSome_none, Bool.false_eq_true, if_false] at i3
    simp [getPhotometryM, hc, MemoInv, i1, i2, i3, i4]

theorem memoInv_getFluxM (ctx : TCtx) {s : TState} (h : MemoInv s) :
    MemoInv (getFluxM ctx s).2 := by
  cases hc : s.fluxCache with
  | some v => simpa [getFluxM, hc] using h
  | none =>
    have m1 : MemoInv (getSpectra ctx s).2 := memoInv_getSpectra ctx h
    cases hq : (getSpectra ctx s).1 with
    | none =>
      obtain ⟨i1, i2, i3, i4⟩ := m1
      rw [(getSpectra_frame ctx s).2.2, hc] at i4
      simp only [Option.isSome_none, Bool.false_eq_true, if_false] at i4
      simp [getFluxM, hc, hq, MemoInv, i1, i2, i3, i4]
    | some sp =>
      have m3 : MemoInv
          (getSpectra ctx
            (getSpectra ctx (getSpectra ctx s).2).2).2 :=
        memoInv_getSpectra ctx (memoInv_getSpectra ctx m1)
      obtain ⟨i1, i2, i3, i4⟩ := m3
      rw [(getSpectra_frame ctx
            (getSpectra ctx (getSpectra ctx s).2).2).2.2,
        (getSpectra_frame ctx (getSpectra ctx s).2).2.2,
        (getSpectra_frame ctx s).2.2, hc] at i4
      simp only [Option.isSome_none, Bool.false_eq_true, if_false] at i4
      simp [getFluxM, hc, hq, MemoInv, i1, i2, i3, i4]

theorem memoInv_getFluxProp (ctx : TCtx) {s : TState} (h : MemoInv s) :
    MemoInv (getFluxProp ctx s).2 := by
  have m1 : MemoInv (getSpectra ctx s).2 := memoInv_getSpectra ctx h
  simp only [getFluxProp]
  split_ifs
  · exact memoInv_getFluxM ctx m1
  · exact m1

theorem memoInv_accessStep (ctx : TCtx) {s : TState} (h : MemoInv s)
    (a : TAccess) : MemoInv (accessStep ctx s a) := by
  cases a
  · exact memoInv_getObjectM ctx h
  · exact memoInv_getObjectM ctx h
  · exact memoInv_getRaDecM ctx h
  · exact memoInv_getRaDecM ctx h
  · exact memoInv_getPhotometryM ctx h
  · exact memoInv_getFluxProp ctx h
  · exact memoInv_getSpectra ctx h

theorem memoInv_runAccesses (ctx : TCtx) (accs : List TAccess) :
    ∀ s : TState, MemoInv s → MemoInv (runAccesses ctx s accs) := by
  induction accs with
  | nil => intro s h; exact h
  | cons a tl ih =>
    intro s h
    exact ih (accessStep ctx s a) (memoInv_accessStep ctx h a)

/-- C4 (counterexample): the `spectra` property is not memoized.  With a
standard-star target, two accesses of `spectra` read the spectrum file
twice, and a single access of `flux` alone reads it four times (the
property's `is not None` guard plus the three accesses inside
`_get_flux`) — the claim demands at most one read per Target
lifetime. -/
theorem C4_counterexample :
    (runAccesses
        { objVal := ("standard", "hd84937"), raDecVal := (0, 0),
          photVal := none, fluxVal := 0, spectrumVal := [],
          filterPresent := true }
        initTState [TAccess.spectra, TAccess.spectra]).spectraReads = 2 ∧
    (runAccesses
        { objVal := ("standard", "hd84937"), raDecVal := (0, 0),
          photVal := none, fluxVal := 0, spectrumVal := [],
          filterPresent := true }
        initTState [TAccess.flux]).spectraReads = 4 ∧
    ¬ ((2 : Nat) ≤ 1) :=
  ⟨rfl, rfl, by decide⟩

/-- C4 (amended): the four `@utilities.memoize`-decorated computations —
`_get_object` (behind objtype/objname), `_get_RaDec` (behind RA/DEC),
`_get_photometry` (behind counts) and `_get_flux` (behind flux) — each
run at most once over any sequence of attribute accesses on one Target;
the spectrum, however, is NOT cached: every `spectra` access re-reads
its file (see the counterexample). -/
theorem C4_amended_memoized_at_most_once (ctx : TCtx)
    (accs : List TAccess) :
    (runAccesses ctx initTState accs).objRuns ≤ 1 ∧
    (runAccesses ctx initTState accs).raDecRuns ≤ 1 ∧
    (runAccesses ctx initTState accs).photRuns ≤ 1 ∧
    (runAccesses ctx initTState accs).fluxRuns ≤ 1 := by
  obtain ⟨h1, h2, h3, h4⟩ :=
    memoInv_runAccesses ctx accs initTState memoInv_init
  refine ⟨?_, ?_, ?_, ?_⟩
  · rw [h1]; split <;> omega
  · rw [h2]; split <;> omega
  · rw [h3]; split <;> omega
  · rw [h4]; split <;> omega

/-! ## Claim C8 -/

theorem foldl_min_mem (xs : List ℚ) (a : ℚ) :
    xs.foldl min a = a ∨ xs.foldl min a ∈ xs := by
  induction xs generalizing a with
  | nil => exact Or.inl rfl
  | cons c cs ih =>
    rw [List.foldl_cons]
    rcases ih (min a c) with h | h
    · rcases min_choice a c with hac | hac
      · exact Or.inl (h.trans hac)
      · exact Or.inr (by rw [h, hac]; exact List.mem_cons_self c cs)
    · exact Or.inr (List.mem_cons_of_mem c h)

theorem foldl_min_le (xs : List ℚ) (a : ℚ) :
    xs.foldl min a ≤ a ∧ ∀ y ∈ xs, xs.foldl min a ≤ y := by
  induction xs generalizing a with
  | nil => exact ⟨le_refl a, by simp⟩
  | cons c cs ih =>
    obtain ⟨h1, h2⟩ := ih (min a c)
    rw [List.foldl_cons]
    refine ⟨le_trans h1 (min_le_left a c), ?_⟩
    intro y hy
    rcases List.mem_cons.mp hy with rfl | hy
    · exact le_trans h1 (min_le_right a y)
    · exact h2 y hy

theorem foldl_max_mem (xs : List ℚ) (a : ℚ) :
    xs.foldl max a = a ∨ xs.foldl max a ∈ xs := by
  induction xs generalizing a with
  | nil => exact Or.inl rfl
  | cons c cs ih =>
    rw [List.foldl_cons]
    rcases ih (max a c) with h | h
    · rcases max_choice a c with hac | hac
      · exact Or.inl (h.trans hac)
      · exact Or.inr (by rw [h, hac]; exact List.mem_cons_self c cs)
    · exact Or.inr (List.mem_cons_of_mem c h)

theorem foldl_max_ge (xs : List ℚ) (a : ℚ) :
    a ≤ xs.foldl max a ∧ ∀ y ∈ xs, y ≤ xs.foldl max a := by
  induction xs generalizing a with
  | nil => exact ⟨le_refl a, by simp⟩
  | cons c cs ih =>
    obtain ⟨h1, h2⟩ := ih (max a c)
    rw [List.foldl_cons]
    refine ⟨le_trans (le_max_left a c) h1, ?_⟩
    intro y hy
    rcases List.mem_cons.mp hy with rfl | hy
    · exact le_trans (le_max_right a y) h1
    · exact h2 y hy

theorem npMin_spec {l : List ℚ} (h : l ≠ []) :
    npMin l ∈ l ∧ ∀ y ∈ l, npMin l ≤ y := by
  cases l with
  | nil => exact absurd rfl h
  | cons x xs =>
    refine ⟨?_, ?_⟩
    · rcases foldl_min_mem xs x with h1 | h1
      · rw [npMin, h1]
        exact List.mem_cons_self x xs
      · rw [npMin]
        exact List.mem_cons_of_mem x h1
    · intro y hy
      rcases List.mem_cons.mp hy with rfl | hy
      · exact (foldl_min_le xs y).1
      · exact (foldl_min_le xs x).2 y hy

theorem npMax_spec {l : List ℚ} (h : l ≠ []) :
    npMax l ∈ l ∧ ∀ y ∈ l, y ≤ npMax l := by
  cases l with
  | nil => exact absurd rfl h
  | cons x xs =>
    refine ⟨?_, ?_⟩
    · rcases foldl_max_mem xs x with h1 | h1
      · rw [npMax, h1]
        exact List.mem_cons_self x xs
      · rw [npMax]
        exact List.mem_cons_of_mem x h1
    · intro y hy
      rcases List.mem_cons.mp hy with rfl | hy
      · exact (foldl_max_ge xs y).1
      · exact (foldl_max_ge xs x).2 y hy

theorem npMin_perm {l m : List ℚ} (hp : l.Perm m) :
    npMin l = npMin m := by
  cases l with
  | nil =>
    rw [← hp.nil_eq]
  | cons x xs =>
    have hl : (x :: xs) ≠ ([] : List ℚ) := List.cons_ne_nil x xs
    have hm : m ≠ [] := by
      intro he
      exact hl (List.Perm.eq_nil (he ▸ hp))
    obtain ⟨mem1, le1⟩ := npMin_spec hl
    obtain ⟨mem2, le2⟩ := npMin_spec hm
    exact le_antisymm (le1 _ (hp.mem_iff.mpr mem2))
      (le2 _ (hp.mem_iff.mp mem1))

theorem npMax_perm {l m : List ℚ} (hp : l.Perm m) :
    npMax l = npMax m := by
  cases l with
  | nil =>
    rw [← hp.nil_eq]
  | cons x xs =>
    have hl : (x :: xs) ≠ ([] : List ℚ) := List.cons_ne_nil x xs
    have hm : m ≠ [] := by
      intro he
      exact hl (List.Perm.eq_nil (he ▸ hp))
    obtain ⟨mem1, ge1⟩ := npMax_spec hl
    obtain ⟨mem2, ge2⟩ := npMax_spec hm
    exact le_antisymm (ge2 _ (hp.mem_iff.mp mem1))
      (ge1 _ (hp.mem_iff.mpr mem2))

theorem eq_of_perm_sorted_strict :
    ∀ {l m : List (ℚ × ℚ)}, m.Perm l → List.Sorted keyLE m →
      List.Pairwise (fun p q : ℚ × ℚ => p.1 < q.1) l → m = l := by
  intro l
  induction l with
  | nil =>
    intro m hp _ _
    exact hp.eq_nil
  | cons a l' ih =>
    intro m hp hs hstrict
    cases m with
    | nil => exact absurd hp.nil_eq (by simp)
    | cons b m' =>
      have hba : b = a := by
        have hbmem : b ∈ a :: l' := hp.subset (List.mem_cons_self b m')
        rcases List.mem_cons.mp hbmem with h | h
        · exact h
        · have halt : a.1 < b.1 := (List.pairwise_cons.mp hstrict).1 b h
          have hamem : a ∈ b :: m' :=
            hp.symm.subset (List.mem_cons_self a l')
          rcases List.mem_cons.mp hamem with h2 | h2
          · exact absurd halt (by rw [h2]; exact lt_irrefl _)
          · have hle : keyLE b a := (List.sorted_cons.mp hs).1 a h2
            exact absurd (lt_of_lt_of_le halt hle) (lt_irrefl _)
      subst hba
      have hm' : m'.Perm l' := hp.cons_inv
      rw [ih hm' (List.sorted_cons.mp hs).2
        (List.pairwise_cons.mp hstrict).2]

theorem insertionSort_reverse_eq {l : List (ℚ × ℚ)}
    (h : List.Pairwise (fun p q : ℚ × ℚ => p.1 < q.1) l) :
    List.insertionSort keyLE l.reverse = List.insertionSort keyLE l := by
  have h1 : List.insertionSort keyLE l.reverse = l :=
    eq_of_perm_sorted_strict
      ((List.perm_insertionSort keyLE l.reverse).trans
        (List.reverse_perm l))
      (List.sorted_insertionSort keyLE l.reverse) h
  have h2 : List.insertionSort keyLE l = l :=
    eq_of_perm_sorted_strict (List.perm_insertionSort keyLE l)
      (List.sorted_insertionSort keyLE l) h
  rw [h1, h2]

theorem zip_fst_snd (m : List (ℚ × ℚ)) :
    (m.map Prod.fst).zip (m.map Prod.snd) = m := by
  rw [List.zip_map']
  simp

/-- C8 (confirmed): for a strictly wavelength-ascending filter curve,
`_get_flux` returns the same result whether the curve is supplied in
ascending order or exactly reversed.  The grid depends only on the
minimum and maximum wavelength (order-invariant), and
`scipy.interpolate.interp1d` (with its default `assume_sorted=False`)
sorts the sample points by wavelength before interpolating, so the
reversed curve produces the identical interpolant. -/
theorem C8_reverse_invariant (pow10 : ℚ → ℚ)
    (cubicCore linCore : List (ℚ × ℚ) → ℚ → ℚ)
    (spectrum filterCurve : List (ℚ × ℚ))
    (h : List.Pairwise (fun p q : ℚ × ℚ => p.1 < q.1) filterCurve) :
    get_flux pow10 cubicCore linCore spectrum filterCurve.reverse
      = get_flux pow10 cubicCore linCore spectrum filterCurve := by
  have hws : filterCurve.reverse.map Prod.fst
      = (filterCurve.map Prod.fst).reverse := List.map_reverse _ _
  have hmin : npMin (filterCurve.reverse.map Prod.fst)
      = npMin (filterCurve.map Prod.fst) := by
    rw [hws]
    exact npMin_perm (List.reverse_perm _)
  have hmax : npMax (filterCurve.reverse.map Prod.fst)
      = npMax (filterCurve.map Prod.fst) := by
    rw [hws]
    exact npMax_perm (List.reverse_perm _)
  have hgrid : integrationGrid (filterCurve.reverse.map Prod.fst)
      = integrationGrid (filterCurve.map Prod.fst) := by
    rw [integrationGrid, integrationGrid, hmin, hmax]
  have htau : tauFun cubicCore filterCurve.reverse
      = tauFun cubicCore filterCurve := by
    rw [tauFun, tauFun, interp1d, interp1d, zip_fst_snd, zip_fst_snd]
    rw [insertionSort_reverse_eq h]
  unfold get_flux
  rw [hgrid, htau]

/-- C8 (witness): instantiation at a three-point ascending filter
curve. -/
theorem C8_witness :
    List.Pairwise (fun p q : ℚ × ℚ => p.1 < q.1)
      [((1 : ℚ), (2 : ℚ)), (3, 4), (6, 5)] ∧
    get_flux (fun _ => 1) (fun _ _ => 1) (fun _ _ => 1) []
        ([((1 : ℚ), (2 : ℚ)), (3, 4), (6, 5)]).reverse
      = get_flux (fun _ => 1) (fun _ _ => 1) (fun _ _ => 1) []
        [((1 : ℚ), (2 : ℚ)), (3, 4), (6, 5)] := by
  have hp : List.Pairwise (fun p q : ℚ × ℚ => p.1 < q.1)
      [((1 : ℚ), (2 : ℚ)), (3, 4), (6, 5)] := by
    norm_num [List.pairwise_cons]
  exact ⟨hp, C8_reverse_invariant _ _ _ _ _ hp⟩

/-! ## Claim C9 -/

theorem get_flux_sum_shape (f g : Int → ℚ) (pw : ℚ → ℚ) (d : ℚ)
    (wl : List Int) :
    ((((wl.map f).zip ((((wl.map g).map pw).zip wl).map
        fun p => p.1 * 3e18 / ((p.2 : ℚ)) ^ 2)).map
      fun p => p.1 * p.2).map fun v => v * d).sum
    = (wl.map fun l => f l * (pw (g l) * 3e18 / ((l : ℚ)) ^ 2) * d).sum := by
  induction wl with
  | nil => rfl
  | cons a tl ih =>
    simp only [List.map_cons, List.zip_cons_cons, List.sum_cons, ih]

/-- C9 (confirmed): whenever the integration grid has at least two
points, `_get_flux` returns exactly the rectangle-rule sum over the grid
of transmittance times flux density times grid step:
`sum_l tau(l) * (10^((-48.6 - mag(l)) / 2.5) * 3e18 / l^2) * delta`,
where `delta = wavelength[1] - wavelength[0]` is the fixed grid step,
`tau` is the cubic scipy interpolant of the filter curve and `mag` the
linear scipy interpolant of the stellar magnitudes (both external
collaborators, zero-filled outside their native support). -/
theorem C9_flux_formula (pow10 : ℚ → ℚ)
    (cubicCore linCore : List (ℚ × ℚ) → ℚ → ℚ)
    (spectrum filterCurve : List (ℚ × ℚ)) (w0 w1 : Int)
    (rest : List Int)
    (hg : integrationGrid (filterCurve.map Prod.fst)
      = w0 :: w1 :: rest) :
    get_flux pow10 cubicCore linCore spectrum filterCurve
      = Except.ok
          (((w0 :: w1 :: rest).map fun (l : Int) =>
            tauFun cubicCore filterCurve (l : ℚ) *
              (pow10 ((-48.6 - magFun linCore spectrum (l : ℚ)) / 2.5) *
                3e18 / ((l : ℚ)) ^ 2) *
              ((w1 : ℚ) - (w0 : ℚ))).sum) := by
  unfold get_flux
  rw [hg]
  exact congrArg Except.ok
    (get_flux_sum_shape
      (fun (l : Int) => tauFun cubicCore filterCurve (l : ℚ))
      (fun (l : Int) => magFun linCore spectrum (l : ℚ))
      (fun m => pow10 ((-48.6 - m) / 2.5))
      ((w1 : ℚ) - (w0 : ℚ)) (w0 :: w1 :: rest))

/-- C9 (witness): instantiation at the filter curve with wavelengths 2
and 7, whose grid is the five integers 2..6 with step 1. -/
theorem C9_witness :
    (integrationGrid (([((2 : ℚ), (1 : ℚ)), (7, 1)]).map Prod.fst)
      = [2, 3, 4, 5, 6]) ∧
    get_flux (fun _ => 1) (fun _ _ => 1) (fun _ _ => 1) []
        [((2 : ℚ), (1 : ℚ)), (7, 1)]
      = Except.ok
          ((([2, 3, 4, 5, 6] : List Int).map fun (l : Int) =>
            tauFun (fun _ _ => 1) [((2 : ℚ), (1 : ℚ)), (7, 1)] (l : ℚ) *
              ((fun _ => (1 : ℚ))
                  ((-48.6 - magFun (fun _ _ => 1) [] (l : ℚ)) / 2.5) *
                3e18 / ((l : ℚ)) ^ 2) *
              (((3 : Int) : ℚ) - ((2 : Int) : ℚ))).sum) := by
  have hm : (([((2 : ℚ), (1 : ℚ)), (7, 1)]).map Prod.fst)
      = [(2 : ℚ), 7] := rfl
  have hmin : npMin [(2 : ℚ), 7] = 2 := by
    simp only [npMin, List.foldl]
    exact min_eq_left (by norm_num)
  have hmax : npMax [(2 : ℚ), 7] = 7 := by
    simp only [npMax, List.foldl]
    exact max_eq_right (by norm_num)
  have hceil : ⌈(2 : ℚ)⌉ = 2 := by
    rw [Int.ceil_eq_iff]
    constructor <;> norm_num
  have hfloor : ⌊(7 : ℚ)⌋ = 7 := by
    rw [Int.floor_eq_iff]
    constructor <;> norm_num
  have hg : integrationGrid
      (([((2 : ℚ), (1 : ℚ)), (7, 1)]).map Prod.fst)
      = [2, 3, 4, 5, 6] := by
    rw [hm, integrationGrid, hmin, hmax, hceil, hfloor]
    rfl
  exact ⟨hg,
    C9_flux_formula (fun _ => 1) (fun _ _ => 1) (fun _ _ => 1) []
      [((2 : ℚ), (1 : ℚ)), (7, 1)] 2 3 [4, 5, 6] hg⟩
